import Mathlib

/- Verification of the ai-code-guard compliance checker.

   Shallow embedding of:
   - the compliance pipeline state machine of app/agents/compliance_agent.py
     (stage functions RepoNode, AnalyzeRepoNode, AnalyzeComplianceNode, the
     conditional routing of create_workflow, and the initial state of
     ComplianceChecker.check_repository);
   - the corpus indexer of app/tools/eu_ai_act_handler.py
     (_split_into_logical_sections, the chunk/metadata construction of
     process_ai_act, the cache check of process_ai_act, and
     _create_vectorstore_in_batches).

   External collaborators (repository download, code analysis, compliance
   assessment, the embedding gateway) are modelled as explicit parameters:
   a collaborator call either returns a value or raises, so it is passed in
   as an Except-valued function, or, for the embedding gateway, as a
   success oracle indexed by the call sequence number. -/

/-- A message of the pipeline's append-only log: a role/content dictionary. -/
structure Message where
  role : String
  content : String
deriving DecidableEq, Repr

/-- Stand-in for the opaque analysis dictionaries (Dict[str, Any]) carried in
the pipeline state; the pipeline never inspects their contents. -/
abbrev AnalysisD := List (String × String)

/-- The GraphState TypedDict of compliance_agent.py. -/
structure GraphState where
  repo_url : String
  branch : String
  repo_path : String
  repo_analysis : AnalysisD
  compliance_analysis : AnalysisD
  messages : List Message
  current_step : String
  status : String
  error : String
deriving DecidableEq, Repr

/-- langgraph's add_messages reducer applied to a fresh role/content dict:
it appends the message to the log (fresh dicts carry no ids, so the
id-based update path never fires). -/
def addMessages (log : List Message) (m : Message) : List Message :=
  log ++ [m]

/-- Marker for a stage side effect: the external collaborator call made
inside a stage's try block. -/
inductive Eff where
  | download
  | analyze
  | assess
deriving DecidableEq, Repr

/-- RepoNode.__call__, instrumented with the list of collaborator calls it
performed. The GitHubHandler.download_repo collaborator is a parameter
mapping (repo_url, branch) to a local path or to the raised exception's
message. -/
def repoNodeE (download : String → String → Except String String)
    (state : GraphState) : GraphState × List Eff :=
  if state.error ≠ "" then (state, [])
  else
    let repo_url := state.repo_url
    let branch := state.branch
    match download repo_url branch with
    | .ok repo_path =>
        ({ state with
            repo_path := repo_path,
            current_step := "analyze_repo",
            status := "downloaded_repo",
            messages := addMessages state.messages
              ⟨"system", "Successfully downloaded repository from " ++ repo_url ++
                " (branch: " ++ branch ++ ") to " ++ repo_path⟩ }, [.download])
    | .error e =>
        ({ state with
            error := "Error downloading repository: " ++ e,
            status := "error",
            messages := addMessages state.messages
              ⟨"system", "Error downloading repository: " ++ e⟩ }, [.download])

/-- AnalyzeRepoNode.__call__, instrumented like repoNodeE. The source reads
state["repo_path"] before its error guard; that read is pure, so it is kept
as a let binding. -/
def analyzeRepoNodeE (analyze : String → Except String AnalysisD)
    (state : GraphState) : GraphState × List Eff :=
  let repo_path := state.repo_path
  if state.error ≠ "" then (state, [])
  else
    match analyze repo_path with
    | .ok repo_analysis =>
        ({ state with
            repo_analysis := repo_analysis,
            current_step := "analyze_compliance",
            status := "analyzed_repo",
            messages := addMessages state.messages
              ⟨"system", "Successfully analyzed repository code"⟩ }, [.analyze])
    | .error e =>
        ({ state with
            error := "Error analyzing repository: " ++ e,
            status := "error",
            messages := addMessages state.messages
              ⟨"system", "Error analyzing repository: " ++ e⟩ }, [.analyze])

/-- AnalyzeComplianceNode.__call__, instrumented like repoNodeE. -/
def analyzeComplianceNodeE (assess : AnalysisD → Except String AnalysisD)
    (state : GraphState) : GraphState × List Eff :=
  if state.error ≠ "" then (state, [])
  else
    let repo_analysis := state.repo_analysis
    match assess repo_analysis with
    | .ok compliance_analysis =>
        ({ state with
            compliance_analysis := compliance_analysis,
            current_step := "end",
            status := "completed",
            messages := addMessages state.messages
              ⟨"system", "Successfully analyzed compliance with EU AI Act"⟩ }, [.assess])
    | .error e =>
        ({ state with
            error := "Error analyzing compliance: " ++ e,
            status := "error",
            messages := addMessages state.messages
              ⟨"system", "Error analyzing compliance: " ++ e⟩ }, [.assess])

/-- RepoNode.__call__ as a plain state transformer. -/
def repoNode (download : String → String → Except String String)
    (state : GraphState) : GraphState :=
  (repoNodeE download state).1

/-- AnalyzeRepoNode.__call__ as a plain state transformer. -/
def analyzeRepoNode (analyze : String → Except String AnalysisD)
    (state : GraphState) : GraphState :=
  (analyzeRepoNodeE analyze state).1

/-- AnalyzeComplianceNode.__call__ as a plain state transformer. -/
def analyzeComplianceNode (assess : AnalysisD → Except String AnalysisD)
    (state : GraphState) : GraphState :=
  (analyzeComplianceNodeE assess state).1

/-- Workflow graph nodes of create_workflow: the three stages, the "error"
target of the conditional edges (no node of that name is registered, so it
ends execution), and END. -/
inductive WNode where
  | download_repo
  | analyze_repo
  | analyze_compliance
  | error
  | done
deriving DecidableEq, Repr

/-- Conditional edge out of download_repo in create_workflow. -/
def routeAfterDownload (s : GraphState) : WNode :=
  if s.error ≠ "" then .error else .analyze_repo

/-- Conditional edge out of analyze_repo in create_workflow. -/
def routeAfterAnalyze (s : GraphState) : WNode :=
  if s.error ≠ "" then .error else .analyze_compliance

/-- One step of the compiled workflow: run the current node's stage function
and route to the next node; the error and END nodes are terminal and do
nothing. -/
def stepW (download : String → String → Except String String)
    (analyze : String → Except String AnalysisD)
    (assess : AnalysisD → Except String AnalysisD) :
    WNode × GraphState → WNode × GraphState × List Eff
  | (.download_repo, s) =>
      let r := repoNodeE download s
      (routeAfterDownload r.1, r.1, r.2)
  | (.analyze_repo, s) =>
      let r := analyzeRepoNodeE analyze s
      (routeAfterAnalyze r.1, r.1, r.2)
  | (.analyze_compliance, s) =>
      let r := analyzeComplianceNodeE assess s
      (.done, r.1, r.2)
  | (.error, s) => (.error, s, [])
  | (.done, s) => (.done, s, [])

/-- Iterate stepW a given number of steps, accumulating the collaborator
calls performed. -/
def runSteps (download : String → String → Except String String)
    (analyze : String → Except String AnalysisD)
    (assess : AnalysisD → Except String AnalysisD) :
    Nat → WNode × GraphState → WNode × GraphState × List Eff
  | 0, cfg => (cfg.1, cfg.2, [])
  | k + 1, cfg =>
      let r := stepW download analyze assess cfg
      let r2 := runSteps download analyze assess k (r.1, r.2.1)
      (r2.1, r2.2.1, r.2.2 ++ r2.2.2)

/-- The initial pipeline state built by ComplianceChecker.check_repository. -/
def initialState (repo_url branch : String) : GraphState :=
  { repo_url := repo_url
    branch := branch
    repo_path := ""
    repo_analysis := []
    compliance_analysis := []
    messages := []
    current_step := "download_repo"
    status := "starting"
    error := "" }

/-- States reachable from an initial state by applying the three stage
functions, under arbitrary collaborator outcomes at each application. -/
inductive ReachableState : GraphState → Prop where
  | init (url branch : String) : ReachableState (initialState url branch)
  | stepDownload (d : String → String → Except String String) (s : GraphState) :
      ReachableState s → ReachableState (repoNode d s)
  | stepAnalyze (a : String → Except String AnalysisD) (s : GraphState) :
      ReachableState s → ReachableState (analyzeRepoNode a s)
  | stepAssess (c : AnalysisD → Except String AnalysisD) (s : GraphState) :
      ReachableState s → ReachableState (analyzeComplianceNode c s)

/-- The status values the spec allows in a top-level result. -/
def validStatus (st : String) : Bool :=
  st = "starting" || st = "downloaded_repo" || st = "analyzed_repo" ||
    st = "completed" || st = "error"

/-- A concrete pipeline state that is already in error. -/
def errStateEx : GraphState :=
  { repo_url := "https://example.org/r"
    branch := "main"
    repo_path := ""
    repo_analysis := []
    compliance_analysis := []
    messages := [⟨"system", "Error downloading repository: boom"⟩]
    current_step := "download_repo"
    status := "error"
    error := "Error downloading repository: boom" }

/-- A download collaborator that always raises. -/
def dlFail : String → String → Except String String :=
  fun _ _ => .error "no network"

/-- An analysis collaborator that always succeeds. -/
def anOk : String → Except String AnalysisD :=
  fun _ => .ok []

/-- An assessment collaborator that always succeeds. -/
def asOk : AnalysisD → Except String AnalysisD :=
  fun _ => .ok []

/-- A document handed to the vector-store build; the batching logic never
inspects it, so it is identified by a number. -/
abbrev Doc := Nat

/-- Observable actions of _create_vectorstore_in_batches: embedding-gateway
calls (FAISS.from_documents and add_documents) with their payload and
outcome, sleeps (recorded in milliseconds), and the final save_local. -/
inductive Ev where
  | embed (docs : List Doc) (ok : Bool)
  | sleep (ms : Nat)
  | save (docs : List Doc)
deriving DecidableEq, Repr

/-- How a build invocation can fail: a gateway exception that escapes (the
half-batch retry of the first batch is not wrapped in a handler), or the
AttributeError raised by calling save_local on a store that was never
created. The emptyIndex alternative is the EmptyIndexError named by the
specification; it is listed only so statements can mention it — no code
path produces it. -/
inductive BuildErr where
  | gateway
  | noneSave
  | emptyIndex
deriving DecidableEq, Repr

/-- Result of one batch-loop iteration (or of the whole loop): the escaped
exception if any, the store contents (none while no store exists), the next
gateway-call index, and the actions performed. -/
structure StepRes where
  err : Option BuildErr
  store : Option (List Doc)
  calls : Nat
  evs : List Ev
deriving DecidableEq, Repr

/-- The per-document loop run on the second half of a failed first batch:
add_documents([doc]) then time.sleep(0.5) inside a handler, so a failing
document is skipped and its half-second sleep does not happen. -/
def addRestOfFirstBatch (okf : Nat → Bool) (n : Nat) (store : List Doc) :
    List Doc → List Doc × Nat × List Ev
  | [] => (store, n, [])
  | d :: rest =>
      if okf n then
        let r := addRestOfFirstBatch okf (n + 1) (store ++ [d]) rest
        (r.1, r.2.1, Ev.embed [d] true :: Ev.sleep 500 :: r.2.2)
      else
        let r := addRestOfFirstBatch okf (n + 1) store rest
        (r.1, r.2.1, Ev.embed [d] false :: r.2.2)

/-- The per-document fallback for a failed subsequent batch: time.sleep(1)
then add_documents([doc]), both inside a handler, so the sleep always
happens and a failing document is skipped. -/
def addIndividually (okf : Nat → Bool) (n : Nat) (store : List Doc) :
    List Doc → List Doc × Nat × List Ev
  | [] => (store, n, [])
  | d :: rest =>
      if okf n then
        let r := addIndividually okf (n + 1) (store ++ [d]) rest
        (r.1, r.2.1, Ev.sleep 1000 :: Ev.embed [d] true :: r.2.2)
      else
        let r := addIndividually okf (n + 1) store rest
        (r.1, r.2.1, Ev.sleep 1000 :: Ev.embed [d] false :: r.2.2)

/-- One iteration of the batch loop. With no store yet (the first-batch
path): FAISS.from_documents on the batch; on failure, sleep the doubled
backoff and retry from_documents on the first half of the batch — this
retry is not wrapped in a handler, so its failure escapes — then add the
second half document by document. With an existing store: add_documents on
the batch; on failure, add document by document with a one-second delay. -/
def stepBatch (okf : Nat → Bool) (n : Nat) (store : Option (List Doc))
    (batch : List Doc) : StepRes :=
  match store with
  | none =>
      if okf n then ⟨none, some batch, n + 1, [Ev.embed batch true]⟩
      else
        let half := batch.take (batch.length / 2)
        if half = [] then
          ⟨none, none, n + 1, [Ev.embed batch false, Ev.sleep 6000]⟩
        else if okf (n + 1) then
          let r := addRestOfFirstBatch okf (n + 2) half (batch.drop (batch.length / 2))
          ⟨none, some r.1, r.2.1,
            Ev.embed batch false :: Ev.sleep 6000 :: Ev.embed half true :: r.2.2⟩
        else
          ⟨some .gateway, none, n + 2,
            [Ev.embed batch false, Ev.sleep 6000, Ev.embed half false]⟩
  | some s =>
      if okf n then ⟨none, some (s ++ batch), n + 1, [Ev.embed batch true]⟩
      else
        let r := addIndividually okf (n + 1) s batch
        ⟨none, some r.1, r.2.1, Ev.embed batch false :: r.2.2⟩

/-- Fuel-indexed worker for toBatches. -/
def toBatchesGo (bs : Nat) : Nat → List Doc → List (List Doc)
  | _, [] => []
  | 0, _ :: _ => []
  | fuel + 1, d :: t =>
      (d :: t.take (bs - 1)) :: toBatchesGo bs fuel (t.drop (bs - 1))

/-- Partition the document list into consecutive batches of size bs (the
final batch may be shorter), mirroring the range(0, len(documents),
batch_size) slicing of the loop header. The worker's fuel is the length of
the list, which bounds the recursion depth, so its fuel-exhausted branch is
never taken. -/
def toBatches (bs : Nat) (l : List Doc) : List (List Doc) :=
  toBatchesGo bs l.length l

/-- The batch loop: run stepBatch on each batch in order, sleeping
delay_seconds between batches — skipped after the final batch, matching the
i + batch_size < len(documents) test — and ending the loop when a step's
exception escaped. -/
def runBatches (okf : Nat → Bool) (n : Nat) (store : Option (List Doc)) :
    List (List Doc) → StepRes
  | [] => ⟨none, store, n, []⟩
  | b :: rest =>
      let r := stepBatch okf n store b
      match r.err with
      | some e => ⟨some e, r.store, r.calls, r.evs⟩
      | none =>
          let inter : List Ev := if rest.isEmpty then [] else [Ev.sleep 3000]
          let r2 := runBatches okf r.calls r.store rest
          ⟨r2.err, r2.store, r2.calls, r.evs ++ inter ++ r2.evs⟩

/-- Final result of a build call: the exception that escaped it, if any,
the final store contents, and the actions performed. -/
structure BuildResult where
  err : Option BuildErr
  store : Option (List Doc)
  events : List Ev
deriving DecidableEq, Repr

/-- _create_vectorstore_in_batches: the batch loop with batch_size 20
followed by vectorstore.save_local. An escaped gateway exception ends the
call before any save; if the loop finishes while no store was ever created,
save_local is a method call on None and raises. -/
def createVectorstoreInBatches (okf : Nat → Bool) (documents : List Doc) :
    BuildResult :=
  let r := runBatches okf 0 none (toBatches 20 documents)
  match r.err with
  | some e => ⟨some e, r.store, r.evs⟩
  | none =>
      match r.store with
      | none => ⟨some .noneSave, none, r.evs⟩
      | some s => ⟨none, some s, r.evs ++ [Ev.save s]⟩

/-- The documents of a batch whose individual re-embedding succeeds when the
per-document gateway calls start at call index n. -/
def keptDocs (okf : Nat → Bool) (n : Nat) : List Doc → List Doc
  | [] => []
  | d :: rest =>
      if okf n then d :: keptDocs okf (n + 1) rest else keptDocs okf (n + 1) rest

/-- Is this event a save_local call? -/
def Ev.isSave : Ev → Bool
  | .save _ => true
  | _ => false

/-- Number of save_local calls among the recorded actions. -/
def saveCount (evs : List Ev) : Nat :=
  evs.countP (fun e => e.isSave)

/-- No save_local call occurs among the recorded actions. -/
def noSave (evs : List Ev) : Bool :=
  evs.all (fun e => !e.isSave)

/-- Forty-one documents: three batches, of sizes 20, 20 and 1. -/
def docsC3 : List Doc := List.range 41

/-- A gateway that accepts call 0 (from_documents on batch 1) and call 22
(add_documents on batch 3) and fails calls 1 through 21: the batch call on
batch 2 and each of its twenty per-document retries. -/
def okC3 : Nat → Bool := fun n => n == 0 || n == 22

/-- Python's word character class \w over the ASCII inputs considered here. -/
def isWordChar (c : Char) : Bool :=
  c.isAlphanum || c = '_'

/-- The ten alternatives of the combined section-marker pattern of
_split_into_logical_sections, in the order they are joined: the keyword and
whether its identifier class is digits (ARTICLE/Article/SECTION/Section use
a number) or word characters. -/
def markerAlts : List (List Char × Bool) :=
  [("CHAPTER".toList, false), ("Chapter".toList, false),
    ("ARTICLE".toList, true), ("Article".toList, true),
    ("TITLE".toList, false), ("Title".toList, false),
    ("ANNEX".toList, false), ("Annex".toList, false),
    ("SECTION".toList, true), ("Section".toList, true)]

/-- Length of the maximal prefix of s whose characters satisfy p: the
greedy one-or-more match, used for the identifier after a keyword. -/
def runLength (p : Char → Bool) : List Char → Nat
  | [] => 0
  | c :: rest => if p c then runLength p rest + 1 else 0

/-- Try one alternative (keyword, space, non-empty greedy identifier) at the
head of s; returns the length of the match. -/
def matchAlt (kw : List Char) (digitsOnly : Bool) (s : List Char) : Option Nat :=
  if (kw ++ [' ']).isPrefixOf s then
    let r := runLength (fun c => if digitsOnly then c.isDigit else isWordChar c)
      (s.drop (kw.length + 1))
    if r = 0 then none else some (kw.length + 1 + r)
  else none

/-- First alternative of the combined pattern that matches at the head of
s, mirroring the left-to-right preference of a regex alternation. -/
def firstAltMatch : List (List Char × Bool) → List Char → Option Nat
  | [], _ => none
  | (kw, d) :: alts, s =>
      match matchAlt kw d s with
      | some len => some len
      | none => firstAltMatch alts s

/-- Does a section marker match at the head of s, and with which length? -/
def matchMarkerAt (s : List Char) : Option Nat :=
  firstAltMatch markerAlts s

/-- Fuel-indexed worker for findMarkers: scan left to right; at a match,
record its position and continue after its whole span (finditer matches are
non-overlapping); a match consumes at least one character, so one fuel per
consumed character suffices. -/
def findMarkersGo : Nat → List Char → Nat → List Nat
  | 0, _, _ => []
  | _ + 1, [], _ => []
  | fuel + 1, c :: rest, pos =>
      match matchMarkerAt (c :: rest) with
      | some len => pos :: findMarkersGo fuel (rest.drop (len - 1)) (pos + len)
      | none => findMarkersGo fuel rest (pos + 1)

/-- Start positions of the non-overlapping matches of the combined marker
pattern, as re.finditer reports them. -/
def findMarkers (s : List Char) (pos : Nat) : List Nat :=
  findMarkersGo s.length s pos

/-- The spans from each marker start to the next marker start (exclusive);
the last span runs to the end of the document. -/
def sectionsOf (text : List Char) : List Nat → List (List Char)
  | [] => []
  | [st] => [text.drop st]
  | st :: st2 :: rest => (text.drop st).take (st2 - st) :: sectionsOf text (st2 :: rest)

/-- _split_into_logical_sections: find marker starts, cut the document into
spans between consecutive starts, keep the spans containing a character
that does not strip away, prepend the text before the first marker when it
is non-empty (with no strip test), and fall back to the whole document when
nothing was collected. -/
def splitIntoLogicalSections (text : List Char) : List (List Char) :=
  let starts := findMarkers text 0
  let sections0 :=
    (sectionsOf text starts).filter (fun s => s.any (fun c => !c.isWhitespace))
  let sections1 :=
    match starts with
    | [] => sections0
    | st :: _ => if 0 < st then text.take st :: sections0 else sections0
  if sections1 = [] then [text] else sections1

/-- The five marker keywords of the specification, lower-cased for the
case-insensitive comparison it prescribes. -/
def specKeywords : List (List Char) :=
  ["chapter".toList, "article".toList, "title".toList, "annex".toList,
    "section".toList]

/-- Case-insensitive character comparison. -/
def lowerEq (a b : Char) : Bool :=
  a.toLower == b.toLower

/-- Case-insensitive prefix test. -/
def ciPrefix : List Char → List Char → Bool
  | [], _ => true
  | _ :: _, [] => false
  | k :: ks, c :: cs => lowerEq k c && ciPrefix ks cs

/-- Modelled from the spec: does a structural marker in the spec's sense — a
keyword, case-insensitively, followed by a space and an identifier — start
at the head of s? -/
def specMarkerAt (s : List Char) : Bool :=
  specKeywords.any (fun kw =>
    ciPrefix kw s &&
      (match s.drop kw.length with
        | ' ' :: c :: _ => isWordChar c
        | _ => false))

/-- Modelled from the spec: positions of markers occurring at line starts,
scanning the document character by character. -/
def specMarkerStartsGo : Nat → List Char → Nat → Bool → List Nat
  | 0, _, _, _ => []
  | _ + 1, [], _, _ => []
  | fuel + 1, c :: rest, pos, atStart =>
      if atStart && specMarkerAt (c :: rest) then
        pos :: specMarkerStartsGo fuel rest (pos + 1) (c == '\n')
      else
        specMarkerStartsGo fuel rest (pos + 1) (c == '\n')

/-- Modelled from the spec: all line-start marker positions of a document. -/
def specMarkerStarts (text : List Char) : List Nat :=
  specMarkerStartsGo text.length text 0 true

/-- Modelled from the spec: splitIntoSections scans for structural markers
case-insensitively and only at line starts; each section spans from one
marker to the next (exclusive); leading text before the first marker
becomes a synthetic preamble section prepended to the result; with no
markers the whole document is one section. -/
def splitIntoSectionsSpec (text : List Char) : List (List Char) :=
  match specMarkerStarts text with
  | [] => [text]
  | st :: rest =>
      let secs := sectionsOf text (st :: rest)
      if 0 < st then text.take st :: secs else secs

/-- Index of the first occurrence of pat in s, scanning left to right. -/
def firstOccur (pat : List Char) : List Char → Option Nat
  | [] => if pat = [] then some 0 else none
  | c :: rest =>
      if pat.isPrefixOf (c :: rest) then some 0
      else
        match firstOccur pat rest with
        | some i => some (i + 1)
        | none => none

/-- The second element of Python's text.split(pat): the text after the first
occurrence of pat, cut at the next (non-overlapping) occurrence of pat or
running to the end; none when pat does not occur in text. -/
def splitSecond (pat : List Char) (s : List Char) : Option (List Char) :=
  match firstOccur pat s with
  | none => none
  | some i =>
      let rest := s.drop (i + pat.length)
      match firstOccur pat rest with
      | none => some rest
      | some j => some (rest.take j)

/-- Python's segment.split(newline)[0]: the text up to the first newline. -/
def takeToNewline (s : List Char) : List Char :=
  s.takeWhile (fun c => c ≠ '\n')

/-- Python's str.strip(): remove leading and trailing whitespace. -/
def stripChars (s : List Char) : List Char :=
  ((s.dropWhile (fun c => c.isWhitespace)).reverse.dropWhile
    (fun c => c.isWhitespace)).reverse

/-- The article metadata computed in process_ai_act:
text.split("Article ")[1].split(newline)[0].strip() when "Article " occurs
in the chunk, else the same with "ARTICLE ", else no label. -/
def extractArticle (s : List Char) : Option (List Char) :=
  match splitSecond "Article ".toList s with
  | some seg => some (stripChars (takeToNewline seg))
  | none =>
      match splitSecond "ARTICLE ".toList s with
      | some seg => some (stripChars (takeToNewline seg))
      | none => none

/-- The title metadata computed in process_ai_act, like extractArticle with
"Title " and "TITLE ". -/
def extractTitle (s : List Char) : Option (List Char) :=
  match splitSecond "Title ".toList s with
  | some seg => some (stripChars (takeToNewline seg))
  | none =>
      match splitSecond "TITLE ".toList s with
      | some seg => some (stripChars (takeToNewline seg))
      | none => none

/-- Does s start with one of the break markers the splitter prefers most:
a blank line followed by an Article or Title heading? -/
def startsMarkerBreak (s : List Char) : Bool :=
  "\n\nArticle".toList.isPrefixOf s || "\n\nTitle".toList.isPrefixOf s

/-- Does s start with a blank line? -/
def startsBlankLine (s : List Char) : Bool :=
  "\n\n".toList.isPrefixOf s

/-- Does s start with a newline? -/
def startsNewline : List Char → Bool
  | '\n' :: _ => true
  | _ => false

/-- Does s start with a space? -/
def startsSpace : List Char → Bool
  | ' ' :: _ => true
  | _ => false

/-- Largest position q with 1 ≤ q ≤ limit such that p holds of s.drop q. -/
def lastPosSat (p : List Char → Bool) : Nat → List Char → Option Nat
  | 0, _ => none
  | q + 1, s => if p (s.drop (q + 1)) then some (q + 1) else lastPosSat p q s

/-- Modelled from the spec: the break position for an over-long window — the
last position within the window starting an Article/Title marker, else a
blank line, else a newline, else a space, else a hard cut at targetSize. -/
def bestBreak (targetSize : Nat) (s : List Char) : Nat :=
  match lastPosSat startsMarkerBreak targetSize s with
  | some q => q
  | none =>
      match lastPosSat startsBlankLine targetSize s with
      | some q => q
      | none =>
          match lastPosSat startsNewline targetSize s with
          | some q => q
          | none =>
              match lastPosSat startsSpace targetSize s with
              | some q => q
              | none => targetSize

/-- Modelled from the spec: fuel-indexed worker for the chunk splitter. -/
def chunkSpecGo (targetSize overlap : Nat) : Nat → List Char → List (List Char)
  | _, [] => []
  | 0, s => [s]
  | fuel + 1, c :: rest =>
      if (c :: rest).length ≤ targetSize then [c :: rest]
      else
        let p := bestBreak targetSize (c :: rest)
        (c :: rest).take p :: chunkSpecGo targetSize overlap fuel ((c :: rest).drop (p - overlap))

/-- Modelled from the spec: the chunk splitter used by process_ai_act (the
code delegates to the third-party RecursiveCharacterTextSplitter of
langchain_text_splitters, which is not part of this repository). It
greedily fills windows of at most targetSize characters, preferring to
break at a following Article/Title marker, a blank line, a newline, a
space, then a hard cut, with consecutive windows sharing overlap characters
of context; a section of at most targetSize characters is one single
chunk. -/
def splitTextSpec (targetSize overlap : Nat) (s : List Char) : List (List Char) :=
  chunkSpecGo targetSize overlap s.length s

/-- A document built by process_ai_act: the chunk text and its metadata
dictionary (source is constant, so it is omitted). -/
structure DocChunk where
  text : List Char
  chunk_id : Nat
  section_id : Nat
  total_chunks : Nat
  article : Option (List Char)
  title : Option (List Char)
deriving DecidableEq, Repr

/-- The chunk construction of process_ai_act: split the document into
logical sections, split each section into texts, and build one document per
text carrying its chunk index, section index, chunk count and the extracted
article/title labels. -/
def chunkDocument (targetSize overlap : Nat) (text : List Char) : List DocChunk :=
  ((splitIntoLogicalSections text).enum.map (fun si =>
    let texts := splitTextSpec targetSize overlap si.2
    texts.enum.map (fun ti =>
      { text := ti.2
        chunk_id := ti.1
        section_id := si.1
        total_chunks := texts.length
        article := extractArticle ti.2
        title := extractTitle ti.2 }))).flatten

/-- The article extraction as the specification words it: locate the first
occurrence of an "Article " or "ARTICLE " token in the chunk text —
whichever occurs first — and take the token through the end of that line. -/
def extractArticleSpec (s : List Char) : Option (List Char) :=
  match firstOccur "Article ".toList s, firstOccur "ARTICLE ".toList s with
  | none, none => none
  | some i, none => some (stripChars (takeToNewline (s.drop (i + 8))))
  | none, some i => some (stripChars (takeToNewline (s.drop (i + 8))))
  | some i, some j => some (stripChars (takeToNewline (s.drop (min i j + 8))))

/-- The cache check of process_ai_act: when a snapshot exists at the vector
store path, FAISS.load_local is tried and its value returned; when loading
raises, execution falls through to a fresh build; with no snapshot it
builds. The load collaborator is a parameter returning the loaded index or
the raised exception's message; the Boolean of the result records whether
the build branch ran. -/
def processAiAct (snapshotExists : Bool) (load : Except String (List Doc))
    (build : List Doc) : List Doc × Bool :=
  if snapshotExists then
    match load with
    | .ok v => (v, false)
    | .error _ => (build, true)
  else (build, true)

/-- The document used to instantiate the C7 structure theorem: one marker
at position 4 preceded by a preamble. -/
def docC7W : List Char := "pre\nArticle 7 end".toList

/-- The scenario document of the specification. -/
def docC8 : List Char :=
  "PreambleText\n\nArticle 1\nBody one.\n\nArticle 2\nBody two.".toList

theorem error_prefix_append_ne_empty (p e : String) (h : p.length ≠ 0) :
    p ++ e ≠ "" := by
  intro hc
  have hlen := congrArg String.length hc
  simp [String.length_append] at hlen
  exact h hlen.1

/-- C6: a stage invoked on a state whose error field is already a non-empty
string returns the state unchanged: each of the three stage functions is the
identity there, changing no field and appending no message. -/
theorem stage_noop_on_error (d : String → String → Except String String)
    (a : String → Except String AnalysisD) (c : AnalysisD → Except String AnalysisD)
    (s : GraphState) (h : s.error ≠ "") :
    repoNode d s = s ∧ analyzeRepoNode a s = s ∧ analyzeComplianceNode c s = s := by
  refine ⟨?_, ?_, ?_⟩ <;>
    simp [repoNode, analyzeRepoNode, analyzeComplianceNode,
      repoNodeE, analyzeRepoNodeE, analyzeComplianceNodeE, h]

theorem stage_noop_on_error_witness :
    repoNode (fun _ _ => .ok "p") errStateEx = errStateEx ∧
      analyzeRepoNode (fun _ => .ok []) errStateEx = errStateEx ∧
      analyzeComplianceNode (fun _ => .ok []) errStateEx = errStateEx :=
  stage_noop_on_error (fun _ _ => .ok "p") (fun _ => .ok []) (fun _ => .ok [])
    errStateEx (by decide)

theorem runSteps_terminal_fixed (d : String → String → Except String String)
    (a : String → Except String AnalysisD) (c : AnalysisD → Except String AnalysisD)
    (n : WNode) (hn : n = WNode.error ∨ n = WNode.done) :
    ∀ (k : Nat) (s : GraphState), runSteps d a c k (n, s) = (n, s, []) := by
  intro k
  induction k with
  | zero => intro s; rfl
  | succ k ih =>
      intro s
      rcases hn with h | h <;> subst h <;> simp [runSteps, stepW, ih]

/-- C5: once a stage execution sets the error field of a previously clean
state to a non-empty string, the stage also sets status to "error", the
workflow routes to a terminal node, and every further step leaves the node
and state untouched while performing no collaborator call: the error state
is absorbing and the error field is frozen. -/
theorem error_absorbing (d : String → String → Except String String)
    (a : String → Except String AnalysisD) (c : AnalysisD → Except String AnalysisD)
    (n : WNode) (s : GraphState)
    (h0 : s.error = "") (h1 : ((stepW d a c (n, s)).2.1).error ≠ "") :
    ((stepW d a c (n, s)).2.1).status = "error" ∧
      ((stepW d a c (n, s)).1 = WNode.error ∨ (stepW d a c (n, s)).1 = WNode.done) ∧
      ∀ k, runSteps d a c k ((stepW d a c (n, s)).1, (stepW d a c (n, s)).2.1) =
        ((stepW d a c (n, s)).1, (stepW d a c (n, s)).2.1, []) := by
  have main : ((stepW d a c (n, s)).2.1).status = "error" ∧
      ((stepW d a c (n, s)).1 = WNode.error ∨ (stepW d a c (n, s)).1 = WNode.done) := by
    cases n with
    | download_repo =>
        cases hd : d s.repo_url s.branch with
        | ok p =>
            exfalso
            apply h1
            simp [stepW, repoNodeE, h0, hd]
        | error e =>
            have hne : ("Error downloading repository: " ++ e) ≠ "" :=
              error_prefix_append_ne_empty _ e (by decide)
            constructor
            · simp [stepW, repoNodeE, h0, hd]
            · left
              simp [stepW, repoNodeE, routeAfterDownload, h0, hd, hne]
    | analyze_repo =>
        cases hd : a s.repo_path with
        | ok r =>
            exfalso
            apply h1
            simp [stepW, analyzeRepoNodeE, h0, hd]
        | error e =>
            have hne : ("Error analyzing repository: " ++ e) ≠ "" :=
              error_prefix_append_ne_empty _ e (by decide)
            constructor
            · simp [stepW, analyzeRepoNodeE, h0, hd]
            · left
              simp [stepW, analyzeRepoNodeE, routeAfterAnalyze, h0, hd, hne]
    | analyze_compliance =>
        cases hd : c s.repo_analysis with
        | ok r =>
            exfalso
            apply h1
            simp [stepW, analyzeComplianceNodeE, h0, hd]
        | error e =>
            constructor
            · simp [stepW, analyzeComplianceNodeE, h0, hd]
            · right
              simp [stepW]
    | error =>
        exfalso
        apply h1
        simpa [stepW] using h0
    | done =>
        exfalso
        apply h1
        simpa [stepW] using h0
  refine ⟨main.1, main.2, ?_⟩
  intro k
  exact runSteps_terminal_fixed d a c _ main.2 k _

theorem error_absorbing_witness :
    ((stepW dlFail anOk asOk (WNode.download_repo, initialState "u" "m")).2.1).status =
        "error" ∧
      runSteps dlFail anOk asOk 2
          ((stepW dlFail anOk asOk (WNode.download_repo, initialState "u" "m")).1,
            (stepW dlFail anOk asOk (WNode.download_repo, initialState "u" "m")).2.1) =
        ((stepW dlFail anOk asOk (WNode.download_repo, initialState "u" "m")).1,
          (stepW dlFail anOk asOk (WNode.download_repo, initialState "u" "m")).2.1, []) := by
  have h := error_absorbing dlFail anOk asOk WNode.download_repo (initialState "u" "m")
    (by decide) (by decide)
  exact ⟨h.1, h.2.2 2⟩

/-- C10: every pipeline state reachable from the initial state via the three
stage functions has a status among starting, downloaded_repo, analyzed_repo,
completed, error, and its status is "error" exactly when its error field is
a non-empty string. -/
theorem reachable_status_ok (s : GraphState) (h : ReachableState s) :
    validStatus s.status = true ∧ (s.status = "error" ↔ s.error ≠ "") := by
  induction h with
  | init url branch =>
      constructor
      · simp [initialState, validStatus]
      · simp [initialState]
  | stepDownload d s hs ih =>
      by_cases hg : s.error = ""
      · cases hd : d s.repo_url s.branch with
        | ok p =>
            constructor
            · simp [repoNode, repoNodeE, hg, hd, validStatus]
            · simp [repoNode, repoNodeE, hg, hd]
        | error e =>
            have hne : ("Error downloading repository: " ++ e) ≠ "" :=
              error_prefix_append_ne_empty _ e (by decide)
            constructor
            · simp [repoNode, repoNodeE, hg, hd, validStatus]
            · simp [repoNode, repoNodeE, hg, hd, hne]
      · have heq : repoNode d s = s := by simp [repoNode, repoNodeE, hg]
        rw [heq]
        exact ih
  | stepAnalyze a s hs ih =>
      by_cases hg : s.error = ""
      · cases hd : a s.repo_path with
        | ok r =>
            constructor
            · simp [analyzeRepoNode, analyzeRepoNodeE, hg, hd, validStatus]
            · simp [analyzeRepoNode, analyzeRepoNodeE, hg, hd]
        | error e =>
            have hne : ("Error analyzing repository: " ++ e) ≠ "" :=
              error_prefix_append_ne_empty _ e (by decide)
            constructor
            · simp [analyzeRepoNode, analyzeRepoNodeE, hg, hd, validStatus]
            · simp [analyzeRepoNode, analyzeRepoNodeE, hg, hd, hne]
      · have heq : analyzeRepoNode a s = s := by simp [analyzeRepoNode, analyzeRepoNodeE, hg]
        rw [heq]
        exact ih
  | stepAssess c s hs ih =>
      by_cases hg : s.error = ""
      · cases hd : c s.repo_analysis with
        | ok r =>
            constructor
            · simp [analyzeComplianceNode, analyzeComplianceNodeE, hg, hd, validStatus]
            · simp [analyzeComplianceNode, analyzeComplianceNodeE, hg, hd]
        | error e =>
            have hne : ("Error analyzing compliance: " ++ e) ≠ "" :=
              error_prefix_append_ne_empty _ e (by decide)
            constructor
            · simp [analyzeComplianceNode, analyzeComplianceNodeE, hg, hd, validStatus]
            · simp [analyzeComplianceNode, analyzeComplianceNodeE, hg, hd, hne]
      · have heq : analyzeComplianceNode c s = s := by
          simp [analyzeComplianceNode, analyzeComplianceNodeE, hg]
        rw [heq]
        exact ih

theorem reachable_status_ok_witness :
    validStatus (initialState "u" "m").status = true ∧
      ((initialState "u" "m").status = "error" ↔ (initialState "u" "m").error ≠ "") :=
  reachable_status_ok (initialState "u" "m") (ReachableState.init "u" "m")

theorem take_half_of_cons_cons_ne_nil (a b : Doc) (l : List Doc) :
    (a :: b :: l).take ((a :: b :: l).length / 2) ≠ [] := by
  have h2 : (a :: b :: l).length / 2 ≠ 0 := by
    simp [List.length_cons]
    omega
  intro hc
  rcases List.take_eq_nil_iff.mp hc with h | h
  · exact h2 h
  · exact List.noConfusion h

theorem stepBatch_first_double_fail (okf : Nat → Bool) (n : Nat) (batch : List Doc)
    (h0 : okf n = false) (h1 : okf (n + 1) = false)
    (hne : batch.take (batch.length / 2) ≠ []) :
    stepBatch okf n none batch =
      ⟨some BuildErr.gateway, none, n + 2,
        [Ev.embed batch false, Ev.sleep 6000,
          Ev.embed (batch.take (batch.length / 2)) false]⟩ := by
  simp [stepBatch, h0, h1, hne]

theorem build_first_two_fail (okf : Nat → Bool) (d1 d2 : Doc) (t : List Doc)
    (h0 : okf 0 = false) (h1 : okf 1 = false) :
    createVectorstoreInBatches okf (d1 :: d2 :: t) =
      ⟨some BuildErr.gateway, none,
        [Ev.embed (d1 :: d2 :: t.take 18) false, Ev.sleep 6000,
          Ev.embed ((d1 :: d2 :: t.take 18).take ((d1 :: d2 :: t.take 18).length / 2))
            false]⟩ := by
  have hne := take_half_of_cons_cons_ne_nil d1 d2 (t.take 18)
  have hstep := stepBatch_first_double_fail okf 0 (d1 :: d2 :: t.take 18) h0 h1 hne
  have htake : (d2 :: t).take 19 = d2 :: t.take 18 := rfl
  simp [createVectorstoreInBatches, toBatches, toBatchesGo, runBatches, htake, hstep]

/-- C1 counterexample: with two documents and a gateway that fails every
call, the halved first-batch retry raises outside any handler, so the
exception escapes the build call instead of the failure being recorded and
the loop proceeding; nothing is saved. -/
theorem first_batch_quarantine_cex :
    (createVectorstoreInBatches (fun _ => false) [0, 1]).err = some BuildErr.gateway ∧
      saveCount (createVectorstoreInBatches (fun _ => false) [0, 1]).events = 0 :=
  ⟨rfl, rfl⟩

/-- C1 (amended): when the gateway fails the first batch, the indexer sleeps
the doubled backoff and retries from_documents on the first half of the
batch; if that halved call also fails, the exception propagates out of the
build call — the build aborts after exactly those three actions, and no
snapshot is saved. -/
theorem first_batch_half_retry_escape (okf : Nat → Bool) (docs : List Doc)
    (hlen : 2 ≤ docs.length) (h0 : okf 0 = false) (h1 : okf 1 = false) :
    (createVectorstoreInBatches okf docs).err = some BuildErr.gateway ∧
      (createVectorstoreInBatches okf docs).events =
        [Ev.embed (docs.take 20) false, Ev.sleep 6000,
          Ev.embed ((docs.take 20).take ((docs.take 20).length / 2)) false] ∧
      saveCount (createVectorstoreInBatches okf docs).events = 0 := by
  rcases docs with _ | ⟨d1, _ | ⟨d2, t⟩⟩
  · simp at hlen
  · simp at hlen
  · have hmain := build_first_two_fail okf d1 d2 t h0 h1
    have htake : (d1 :: d2 :: t).take 20 = d1 :: d2 :: t.take 18 := rfl
    rw [hmain, htake]
    refine ⟨rfl, rfl, ?_⟩
    simp [saveCount, Ev.isSave]

theorem first_batch_half_retry_escape_witness :
    (createVectorstoreInBatches (fun _ => false) [5, 6]).err = some BuildErr.gateway ∧
      (createVectorstoreInBatches (fun _ => false) [5, 6]).events =
        [Ev.embed ([5, 6].take 20) false, Ev.sleep 6000,
          Ev.embed (([5, 6].take 20).take (([5, 6].take 20).length / 2)) false] ∧
      saveCount (createVectorstoreInBatches (fun _ => false) [5, 6]).events = 0 :=
  first_batch_half_retry_escape (fun _ => false) [5, 6] (by decide) rfl rfl

/-- C2 counterexample: with a gateway that fails every call, the build fails
by propagating the gateway exception, not with the EmptyIndexError the
specification names (no code path produces such an error); no snapshot is
written. -/
theorem empty_index_error_cex :
    (createVectorstoreInBatches (fun _ => false) [0, 1, 2]).err =
        some BuildErr.gateway ∧
      (createVectorstoreInBatches (fun _ => false) [0, 1, 2]).err ≠
        some BuildErr.emptyIndex ∧
      saveCount (createVectorstoreInBatches (fun _ => false) [0, 1, 2]).events = 0 :=
  ⟨rfl, by decide, rfl⟩

/-- C2 (amended): if the gateway fails every call, the build always fails —
with the escaped gateway exception when the first batch holds at least two
documents, and otherwise with the error of calling save_local on the store
that was never created — never with an EmptyIndexError, and in every case
no snapshot is written. -/
theorem all_failures_build_fails (okf : Nat → Bool) (docs : List Doc)
    (hall : ∀ k, okf k = false) :
    (createVectorstoreInBatches okf docs).err ≠ none ∧
      saveCount (createVectorstoreInBatches okf docs).events = 0 ∧
      (createVectorstoreInBatches okf docs).err ≠ some BuildErr.emptyIndex := by
  rcases docs with _ | ⟨d1, _ | ⟨d2, t⟩⟩
  · have h : createVectorstoreInBatches okf [] =
        ⟨some BuildErr.noneSave, none, []⟩ := rfl
    rw [h]
    exact ⟨by simp, rfl, by simp⟩
  · have h : createVectorstoreInBatches okf [d1] =
        ⟨some BuildErr.noneSave, none, [Ev.embed [d1] false, Ev.sleep 6000]⟩ := by
      simp [createVectorstoreInBatches, toBatches, toBatchesGo, runBatches,
        stepBatch, hall 0]
    rw [h]
    exact ⟨by simp, by simp [saveCount, Ev.isSave], by simp⟩
  · rw [build_first_two_fail okf d1 d2 t (hall 0) (hall 1)]
    exact ⟨by simp, by simp [saveCount, Ev.isSave], by simp⟩

theorem all_failures_build_fails_witness :
    (createVectorstoreInBatches (fun _ => false) [9]).err ≠ none ∧
      saveCount (createVectorstoreInBatches (fun _ => false) [9]).events = 0 ∧
      (createVectorstoreInBatches (fun _ => false) [9]).err ≠
        some BuildErr.emptyIndex :=
  all_failures_build_fails (fun _ => false) [9] (fun _ => rfl)

theorem addIndividually_store (okf : Nat → Bool) :
    ∀ (l : List Doc) (n : Nat) (s : List Doc),
      (addIndividually okf n s l).1 = s ++ keptDocs okf n l := by
  intro l
  induction l with
  | nil => intro n s; simp [addIndividually, keptDocs]
  | cons d rest ih =>
      intro n s
      by_cases h : okf n = true
      · simp [addIndividually, keptDocs, h, ih]
      · simp [addIndividually, keptDocs, h, ih]

theorem addIndividually_evs_shape (okf : Nat → Bool) :
    ∀ (l : List Doc) (n : Nat) (s : List Doc),
      ∀ e ∈ (addIndividually okf n s l).2.2,
        e = Ev.sleep 1000 ∨ ∃ d b, e = Ev.embed [d] b := by
  intro l
  induction l with
  | nil => intro n s e he; simp [addIndividually] at he
  | cons d rest ih =>
      intro n s e he
      by_cases h : okf n = true
      · simp [addIndividually, h] at he
        rcases he with h1 | h1 | h1
        · exact Or.inl h1
        · exact Or.inr ⟨d, true, h1⟩
        · exact ih (n + 1) (s ++ [d]) e h1
      · simp [addIndividually, h] at he
        rcases he with h1 | h1 | h1
        · exact Or.inl h1
        · exact Or.inr ⟨d, false, h1⟩
        · exact ih (n + 1) s e h1

/-- C3: when the gateway fails a batch after a store already exists, the
step raises nothing, the store gains exactly the documents of the batch
whose individual re-embedding succeeded, and every action of the step
besides the failed batch call is a fixed one-second delay or a
single-document embedding; concretely, with three batches where batch 2
fails entirely (batch call and all per-document retries), the build returns
normally and the final index holds exactly batches 1 and 3. -/
theorem subsequent_batch_fallback :
    (∀ (okf : Nat → Bool) (n : Nat) (s batch : List Doc),
        okf n = false →
          (stepBatch okf n (some s) batch).err = none ∧
            (stepBatch okf n (some s) batch).store =
              some (s ++ keptDocs okf (n + 1) batch) ∧
            ∀ e ∈ (stepBatch okf n (some s) batch).evs,
              e = Ev.embed batch false ∨ e = Ev.sleep 1000 ∨
                ∃ d b, e = Ev.embed [d] b) ∧
      (createVectorstoreInBatches okC3 docsC3).err = none ∧
        (createVectorstoreInBatches okC3 docsC3).store =
          some (List.range 20 ++ [40]) := by
  refine ⟨?_, rfl, rfl⟩
  intro okf n s batch h
  refine ⟨?_, ?_, ?_⟩
  · simp [stepBatch, h]
  · simp [stepBatch, h, addIndividually_store]
  · intro e he
    simp [stepBatch, h] at he
    rcases he with h1 | h1
    · exact Or.inl h1
    · rcases addIndividually_evs_shape okf batch (n + 1) s e h1 with h2 | h2
      · exact Or.inr (Or.inl h2)
      · exact Or.inr (Or.inr h2)

theorem subsequent_batch_fallback_witness :
    (stepBatch (fun _ => false) 0 (some [1, 2]) [7, 8]).err = none ∧
      (stepBatch (fun _ => false) 0 (some [1, 2]) [7, 8]).store =
        some ([1, 2] ++ keptDocs (fun _ => false) 1 [7, 8]) :=
  ⟨(subsequent_batch_fallback.1 (fun _ => false) 0 [1, 2] [7, 8] rfl).1,
    (subsequent_batch_fallback.1 (fun _ => false) 0 [1, 2] [7, 8] rfl).2.1⟩

theorem noSave_addRestOfFirstBatch (okf : Nat → Bool) :
    ∀ (l : List Doc) (n : Nat) (s : List Doc),
      noSave (addRestOfFirstBatch okf n s l).2.2 = true := by
  intro l
  induction l with
  | nil => intro n s; rfl
  | cons d rest ih =>
      intro n s
      by_cases h : okf n = true
      · simpa [addRestOfFirstBatch, h, noSave, Ev.isSave] using ih (n + 1) (s ++ [d])
      · simpa [addRestOfFirstBatch, h, noSave, Ev.isSave] using ih (n + 1) s

theorem noSave_addIndividually (okf : Nat → Bool) :
    ∀ (l : List Doc) (n : Nat) (s : List Doc),
      noSave (addIndividually okf n s l).2.2 = true := by
  intro l
  induction l with
  | nil => intro n s; rfl
  | cons d rest ih =>
      intro n s
      by_cases h : okf n = true
      · simpa [addIndividually, h, noSave, Ev.isSave] using ih (n + 1) (s ++ [d])
      · simpa [addIndividually, h, noSave, Ev.isSave] using ih (n + 1) s

theorem isSave_embed (d : List Doc) (b : Bool) : (Ev.embed d b).isSave = false := rfl

theorem isSave_sleep (ms : Nat) : (Ev.sleep ms).isSave = false := rfl

theorem isSave_save_ev (d : List Doc) : (Ev.save d).isSave = true := rfl

theorem noSave_stepBatch (okf : Nat → Bool) (n : Nat) (store : Option (List Doc))
    (b : List Doc) : noSave (stepBatch okf n store b).evs = true := by
  cases store with
  | none =>
      by_cases h0 : okf n = true
      · simp [stepBatch, h0, noSave, isSave_embed]
      · by_cases hh : b.take (b.length / 2) = []
        · simp [stepBatch, h0, hh, noSave, isSave_embed, isSave_sleep]
        · by_cases h1 : okf (n + 1) = true
          · have hrest := noSave_addRestOfFirstBatch okf (b.drop (b.length / 2))
              (n + 2) (b.take (b.length / 2))
            simp [noSave] at hrest
            simp [stepBatch, h0, hh, h1, noSave, isSave_embed, isSave_sleep]
            exact hrest
          · simp [stepBatch, h0, hh, h1, noSave, isSave_embed, isSave_sleep]
  | some s =>
      by_cases h0 : okf n = true
      · simp [stepBatch, h0, noSave, isSave_embed]
      · have hrest := noSave_addIndividually okf b (n + 1) s
        simp [noSave] at hrest
        simp [stepBatch, h0, noSave, isSave_embed]
        exact hrest

theorem runBatches_cons (okf : Nat → Bool) (n : Nat) (store : Option (List Doc))
    (b : List Doc) (rest : List (List Doc)) :
    runBatches okf n store (b :: rest) =
      match (stepBatch okf n store b).err with
      | some e =>
          ⟨some e, (stepBatch okf n store b).store, (stepBatch okf n store b).calls,
            (stepBatch okf n store b).evs⟩
      | none =>
          ⟨(runBatches okf (stepBatch okf n store b).calls
              (stepBatch okf n store b).store rest).err,
            (runBatches okf (stepBatch okf n store b).calls
              (stepBatch okf n store b).store rest).store,
            (runBatches okf (stepBatch okf n store b).calls
              (stepBatch okf n store b).store rest).calls,
            (stepBatch okf n store b).evs ++
              (if rest.isEmpty then [] else [Ev.sleep 3000]) ++
              (runBatches okf (stepBatch okf n store b).calls
                (stepBatch okf n store b).store rest).evs⟩ := rfl

theorem noSave_runBatches (okf : Nat → Bool) :
    ∀ (bs : List (List Doc)) (n : Nat) (store : Option (List Doc)),
      noSave (runBatches okf n store bs).evs = true := by
  intro bs
  induction bs with
  | nil => intro n store; rfl
  | cons b rest ih =>
      intro n store
      rw [runBatches_cons]
      cases herr : (stepBatch okf n store b).err with
      | some e =>
          simp only [herr]
          exact noSave_stepBatch okf n store b
      | none =>
          simp only [herr]
          have h1 := noSave_stepBatch okf n store b
          have h2 := ih (stepBatch okf n store b).calls (stepBatch okf n store b).store
          rw [noSave, List.all_eq_true] at h1 h2 ⊢
          intro e he
          rcases List.mem_append.mp he with he1 | he2
          · rcases List.mem_append.mp he1 with ha | hb
            · exact h1 e ha
            · cases rest with
              | nil => simp at hb
              | cons b2 rest2 =>
                  simp at hb
                  subst hb
                  rfl
          · exact h2 e he2

theorem saveCount_eq_zero_of_noSave (evs : List Ev) (h : noSave evs = true) :
    saveCount evs = 0 := by
  rw [saveCount, List.countP_eq_zero]
  intro e he
  have hmem := List.all_eq_true.mp h e he
  simpa using hmem

theorem noSave_dropLast (evs : List Ev) (h : noSave evs = true) :
    noSave evs.dropLast = true := by
  rw [noSave, List.all_eq_true] at h ⊢
  intro e he
  exact h e ((List.dropLast_prefix evs).subset he)

/-- C4: in every build invocation, save_local is invoked at most once, and
only as the very last action after the whole batch loop has finished — no
save is ever followed by another action, so a store is never persisted
while batches remain to be processed. -/
theorem save_at_most_once_final (okf : Nat → Bool) (docs : List Doc) :
    saveCount (createVectorstoreInBatches okf docs).events ≤ 1 ∧
      noSave ((createVectorstoreInBatches okf docs).events.dropLast) = true := by
  have hloop := noSave_runBatches okf (toBatches 20 docs) 0 none
  unfold createVectorstoreInBatches
  cases herr : (runBatches okf 0 none (toBatches 20 docs)).err with
  | some e =>
      simp only [herr]
      exact ⟨by simp [saveCount_eq_zero_of_noSave _ hloop],
        noSave_dropLast _ hloop⟩
  | none =>
      cases hst : (runBatches okf 0 none (toBatches 20 docs)).store with
      | none =>
          simp only [herr, hst]
          exact ⟨by simp [saveCount_eq_zero_of_noSave _ hloop],
            noSave_dropLast _ hloop⟩
      | some s =>
          simp only [herr, hst]
          constructor
          · rw [saveCount, List.countP_append]
            have hz : saveCount (runBatches okf 0 none (toBatches 20 docs)).evs = 0 :=
              saveCount_eq_zero_of_noSave _ hloop
            rw [saveCount] at hz
            simp [hz, List.countP_cons, isSave_save_ev]
          · rw [List.dropLast_concat]
            exact hloop

theorem findMarkersGo_mono :
    ∀ (fuel : Nat) (s : List Char) (pos : Nat),
      List.Chain' (· ≤ ·) (findMarkersGo fuel s pos) ∧
        ∀ x ∈ findMarkersGo fuel s pos, pos ≤ x := by
  intro fuel
  induction fuel with
  | zero => intro s pos; simp [findMarkersGo]
  | succ fuel ih =>
      intro s pos
      cases s with
      | nil => simp [findMarkersGo]
      | cons c rest =>
          cases hm : matchMarkerAt (c :: rest) with
          | some len =>
              have h := ih (rest.drop (len - 1)) (pos + len)
              simp only [findMarkersGo, hm]
              constructor
              · rw [List.chain'_cons']
                refine ⟨fun y hy => ?_, h.1⟩
                have hmem := List.mem_of_mem_head? hy
                exact le_trans (Nat.le_add_right pos len) (h.2 y hmem)
              · intro x hx
                rcases List.mem_cons.mp hx with rfl | hx2
                · exact le_refl x
                · exact le_trans (Nat.le_add_right pos len) (h.2 x hx2)
          | none =>
              have h := ih rest (pos + 1)
              simp only [findMarkersGo, hm]
              exact ⟨h.1, fun x hx => le_trans (Nat.le_add_right pos 1) (h.2 x hx)⟩

theorem sectionsOf_flatten (text : List Char) :
    ∀ (rest : List Nat) (s1 : Nat), List.Chain' (· ≤ ·) (s1 :: rest) →
      (sectionsOf text (s1 :: rest)).flatten = text.drop s1 := by
  intro rest
  induction rest with
  | nil => intro s1 _; simp [sectionsOf]
  | cons s2 rest2 ih =>
      intro s1 hch
      have h12 : s1 ≤ s2 := (List.chain'_cons.mp hch).1
      have ih2 := ih s2 (List.chain'_cons.mp hch).2
      simp only [sectionsOf, List.flatten_cons, ih2]
      have hdd : (text.drop s1).drop (s2 - s1) = text.drop s2 := by
        rw [List.drop_drop]
        congr 1
        omega
      rw [← hdd, List.take_append_drop]

/-- C7 counterexample: the scanner is neither case-insensitive nor anchored
at line starts. A mid-line "Article 5" does start a section, and a
lower-case line-start "chapter one" does not — in both cases the code
disagrees with the split described by the specification. -/
theorem split_sections_markers_cex :
    splitIntoLogicalSections "See Article 5 now.".toList =
        ["See ".toList, "Article 5 now.".toList] ∧
      splitIntoSectionsSpec "See Article 5 now.".toList =
        ["See Article 5 now.".toList] ∧
      splitIntoLogicalSections "intro\nchapter one\nrest".toList =
        ["intro\nchapter one\nrest".toList] ∧
      splitIntoSectionsSpec "intro\nchapter one\nrest".toList =
        ["intro\n".toList, "chapter one\nrest".toList] ∧
      splitIntoLogicalSections "See Article 5 now.".toList ≠
        splitIntoSectionsSpec "See Article 5 now.".toList ∧
      splitIntoLogicalSections "intro\nchapter one\nrest".toList ≠
        splitIntoSectionsSpec "intro\nchapter one\nrest".toList :=
  ⟨rfl, rfl, rfl, rfl, by decide, by decide⟩

/-- C7 (amended): the scanner matches the exact capitalizations
KEYWORD/Keyword anywhere in the text — not case-insensitively and not only
at line starts. With no marker found the whole document is one section;
otherwise the spans between consecutive marker starts cover the document
from the first marker to its end, and when text precedes the first marker
it is prepended as the synthetic preamble section heading the result. -/
theorem split_sections_structure (text : List Char) :
    (findMarkers text 0 = [] → splitIntoLogicalSections text = [text]) ∧
      (∀ s1 rest, findMarkers text 0 = s1 :: rest →
        text.take s1 ++ (sectionsOf text (s1 :: rest)).flatten = text ∧
          (0 < s1 →
            (splitIntoLogicalSections text).head? = some (text.take s1))) := by
  constructor
  · intro h
    simp [splitIntoLogicalSections, h, sectionsOf]
  · intro s1 rest h
    constructor
    · have hch : List.Chain' (· ≤ ·) (s1 :: rest) := by
        have hm := (findMarkersGo_mono text.length text 0).1
        rw [show findMarkersGo text.length text 0 = findMarkers text 0 from rfl,
          h] at hm
        exact hm
      rw [sectionsOf_flatten text rest s1 hch, List.take_append_drop]
    · intro hpos
      simp [splitIntoLogicalSections, h, hpos]

theorem split_sections_structure_witness :
    docC7W.take 4 ++ (sectionsOf docC7W [4]).flatten = docC7W ∧
      (splitIntoLogicalSections docC7W).head? = some (docC7W.take 4) :=
  ⟨((split_sections_structure docC7W).2 4 [] (by decide)).1,
    ((split_sections_structure docC7W).2 4 [] (by decide)).2 (by decide)⟩

/-- C8 counterexample: in a chunk reading "Article 1 and Article two"
followed by more text on the next line, the code truncates the label at the
second occurrence of the token, yielding "1 and", while the rule stated by
the specification — the token through the end of that line — yields
"1 and Article two". -/
theorem chunk_article_label_cex :
    (chunkDocument 1000 50 "Article 1 and Article two\nrest".toList).map
        (fun c => c.article) = [some "1 and".toList] ∧
      extractArticleSpec "Article 1 and Article two\nrest".toList =
        some "1 and Article two".toList ∧
      (chunkDocument 1000 50 "Article 1 and Article two\nrest".toList).map
          (fun c => c.article) ≠
        [extractArticleSpec "Article 1 and Article two\nrest".toList] :=
  ⟨rfl, rfl, by decide⟩

/-- C8 (amended): chunkDocument labels a chunk from the segment after the
first occurrence of "Article " (falling back to "ARTICLE " only when the
former is absent), cut at the end of that line or at the next occurrence of
the token, whichever comes first; a chunk containing neither token gets no
label. In the scenario document there are exactly two sections besides the
synthetic preamble, each contained in one chunk, with article labels "1"
and "2". -/
theorem chunk_article_labels (s : List Char)
    (h1 : firstOccur "Article ".toList s = none)
    (h2 : firstOccur "ARTICLE ".toList s = none) :
    extractArticle s = none ∧
      (splitIntoLogicalSections docC8).length = 3 ∧
      (chunkDocument 1000 50 docC8).map
          (fun c => (c.section_id, c.total_chunks, c.article)) =
        [(0, 1, none), (1, 1, some "1".toList), (2, 1, some "2".toList)] := by
  refine ⟨?_, by decide, by decide⟩
  unfold extractArticle splitSecond
  rw [h1, h2]

theorem chunk_article_labels_witness :
    extractArticle "Body only".toList = none ∧
      (splitIntoLogicalSections docC8).length = 3 ∧
      (chunkDocument 1000 50 docC8).map
          (fun c => (c.section_id, c.total_chunks, c.article)) =
        [(0, 1, none), (1, 1, some "1".toList), (2, 1, some "2".toList)] :=
  chunk_article_labels "Body only".toList (by decide) (by decide)

/-- C9: if a snapshot exists and load succeeds, the loaded index is
returned and the build branch never runs; if load raises, the call does not
fail but falls through to a fresh build; with no snapshot it builds. -/
theorem cache_load_fallback (v b : List Doc) (e : String) :
    processAiAct true (.ok v) b = (v, false) ∧
      processAiAct true (.error e) b = (b, true) ∧
      processAiAct false (.ok v) b = (b, true) :=
  ⟨rfl, rfl, rfl⟩
